import Mathlib

/-!
Verification development for the session and memory orchestration engine of a
conversational language-tutoring client.  The definitions below are a shallow
embedding of the TypeScript source (`gemini.service.ts`, `chat.component.ts`):
pure functions over explicit state, with machine dates abstracted to day
numbers (`Nat`), matching the source's day-granularity handling of
`nextReviewDate` (ISO `YYYY-MM-DD` strings, always compared after midnight
normalization).
-/

namespace FrenchCompanion

/-! ### Models of the JavaScript string builtins used by the source

The source calls `String.prototype.toLowerCase`, `String.prototype.includes`
and `String.prototype.trim`.  They are modelled here over the character list
of a Lean `String` so that every definition evaluates inside the kernel.
-/

/-- Model of JS `s.toLowerCase()` (ASCII case folding, which covers every
string the source compares case-insensitively). -/
def toLowerStr (s : String) : String := String.mk (s.data.map Char.toLower)

/-- Helper for `strIncludes`: does `pat` occur as a contiguous sublist? -/
def listSub : List Char → List Char → Bool
  | _, [] => true
  | [], _ => false
  | a :: as, pat => (pat.isPrefixOf (a :: as)) || listSub as pat

/-- Model of JS `s.includes(pat)`. -/
def strIncludes (s pat : String) : Bool := listSub s.data pat.data

/-- Whitespace test used by the model of JS `trim`. -/
def isWsChar (c : Char) : Bool := c == ' ' || c == '\t' || c == '\n' || c == '\r'

/-- Model of JS `s.trim()`. -/
def trimStr (s : String) : String :=
  String.mk (((s.data.dropWhile isWsChar).reverse.dropWhile isWsChar).reverse)

/-! ### Data model (from `gemini.service.ts` interfaces) -/

/-- `VocabularyItem` from `gemini.service.ts` (field `example` is named
`exampleSentence` here because `example` is a Lean keyword). -/
structure VocabularyItem where
  word : String
  translation : String
  exampleSentence : String
deriving DecidableEq

/-- `VocabularyBankItem` from `gemini.service.ts`; `nextReviewDate` is the day
number standing for the ISO date string. -/
structure VocabularyBankItem where
  word : String
  translation : String
  exampleSentence : String
  srsLevel : Nat
  nextReviewDate : Nat
deriving DecidableEq

/-! ### Spaced-repetition scheduler (from `chat.component.ts`) -/

/-- `srsIntervalsDays` field of `ChatComponent`. -/
def srsIntervalsDays : List Nat := [1, 3, 7, 14, 30, 60, 120]

/-- The interval the source reads at a given SRS level:
`srsIntervalsDays[Math.min(lvl, srsIntervalsDays.length - 1)]`. -/
def srsIntervalFor (lvl : Nat) : Nat :=
  srsIntervalsDays.getD (min lvl (srsIntervalsDays.length - 1)) 0

/-- The entry `addWordToBank` builds for a word that is not yet in the bank:
level 0, next review the day after the intake date (`tomorrow`). -/
def freshBankItem (today : Nat) (w : VocabularyItem) : VocabularyBankItem :=
  { word := w.word, translation := w.translation,
    exampleSentence := w.exampleSentence,
    srsLevel := 0, nextReviewDate := today + 1 }

/-- `ChatComponent.addWordToBank`: a case-insensitive duplicate leaves the
bank unchanged, otherwise one fresh entry is appended. -/
def addWordToBank (today : Nat) (wordToAdd : VocabularyItem)
    (bank : List VocabularyBankItem) : List VocabularyBankItem :=
  if bank.any (fun item => toLowerStr item.word == toLowerStr wordToAdd.word) then bank
  else bank ++ [freshBankItem today wordToAdd]

/-- The update `reviewWord` applies to the matched entry: increment
`srsLevel`, then set `nextReviewDate := today + interval(new level)`. -/
def promoteItem (today : Nat) (item : VocabularyBankItem) : VocabularyBankItem :=
  { item with srsLevel := item.srsLevel + 1,
              nextReviewDate := today + srsIntervalFor (item.srsLevel + 1) }

/-- `ChatComponent.reviewWord`: find the first case-insensitive match of the
reviewed word, replace exactly that entry by its promotion; if no entry
matches, return the bank unchanged. -/
def reviewWord (today : Nat) (wordToReview : VocabularyBankItem)
    (bank : List VocabularyBankItem) : List VocabularyBankItem :=
  match bank.findIdx? (fun item => toLowerStr item.word == toLowerStr wordToReview.word) with
  | none => bank
  | some i =>
    match bank.get? i with
    | none => bank
    | some w => bank.set i (promoteItem today w)

/-- Comparison key of the sort in `wordsDueForReview`:
`new Date(a.nextReviewDate).getTime() - new Date(b.nextReviewDate).getTime()`. -/
def dateLe (a b : VocabularyBankItem) : Prop := a.nextReviewDate ≤ b.nextReviewDate

instance : DecidableRel dateLe := fun a b => Nat.decLe a.nextReviewDate b.nextReviewDate

instance : IsTotal VocabularyBankItem dateLe := ⟨fun a b => Nat.le_total _ _⟩

instance : IsTrans VocabularyBankItem dateLe := ⟨fun _ _ _ => Nat.le_trans⟩

instance : IsRefl VocabularyBankItem dateLe := ⟨fun _ => Nat.le_refl _⟩

/-- `ChatComponent.wordsDueForReview`: keep the entries due on or before
`today` (day granularity) and sort them by `nextReviewDate` ascending.  JS
`Array.prototype.sort` is stable, which `List.insertionSort` with a
non-strict key comparison reproduces. -/
def wordsDueForReview (today : Nat) (bank : List VocabularyBankItem) :
    List VocabularyBankItem :=
  List.insertionSort dateLe (bank.filter (fun item => item.nextReviewDate ≤ today))

/-- Case-insensitive key uniqueness: the bank invariant of claim C2. -/
def UniqueKeys (bank : List VocabularyBankItem) : Prop :=
  bank.Pairwise (fun a b => toLowerStr a.word ≠ toLowerStr b.word)

/-- A single intake preserves case-insensitive key uniqueness. -/
theorem addWordToBank_uniqueKeys (today : Nat) (w : VocabularyItem)
    (bank : List VocabularyBankItem) (h : UniqueKeys bank) :
    UniqueKeys (addWordToBank today w bank) := by
  unfold addWordToBank
  split
  · exact h
  · rename_i hany
    simp only [List.any_eq_true, beq_iff_eq, not_exists, not_and] at hany
    unfold UniqueKeys
    rw [List.pairwise_append]
    refine ⟨h, List.pairwise_singleton _ _, ?_⟩
    intro a ha b hb
    simp only [List.mem_singleton] at hb
    subst hb
    exact fun hc => hany a ha (by simpa [freshBankItem] using hc)

/-- Claim C2: starting from a bank with unique case-insensitive headwords,
any sequence of intakes (`addWordToBank`) keeps the keys unique; an intake
whose headword already occurs case-insensitively is a no-op, and an intake of
a new headword appends exactly one entry with `srsLevel = 0` and
`nextReviewDate` the day after the intake date. -/
theorem addWordToBank_spec
    (intakes : List (Nat × VocabularyItem)) (bank : List VocabularyBankItem)
    (today : Nat) (w : VocabularyItem) :
    (UniqueKeys bank →
      UniqueKeys (intakes.foldl (fun b p => addWordToBank p.1 p.2 b) bank))
    ∧ ((∃ item ∈ bank, toLowerStr item.word = toLowerStr w.word) →
        addWordToBank today w bank = bank)
    ∧ ((∀ item ∈ bank, toLowerStr item.word ≠ toLowerStr w.word) →
        addWordToBank today w bank = bank ++ [freshBankItem today w] ∧
        (freshBankItem today w).srsLevel = 0 ∧
        (freshBankItem today w).nextReviewDate = today + 1) := by
  refine ⟨?_, ?_, ?_⟩
  · intro h
    induction intakes generalizing bank with
    | nil => exact h
    | cons p ps ih =>
      exact ih (addWordToBank p.1 p.2 bank) (addWordToBank_uniqueKeys p.1 p.2 bank h)
  · intro hdup
    unfold addWordToBank
    rw [if_pos]
    simpa only [List.any_eq_true, beq_iff_eq] using hdup
  · intro hnew
    refine ⟨?_, rfl, rfl⟩
    unfold addWordToBank
    rw [if_neg]
    simp only [List.any_eq_true, beq_iff_eq, not_exists, not_and]
    exact hnew

/-- Witness for claim C2 at a concrete bank and intake. -/
theorem addWordToBank_spec_witness :
    addWordToBank 7 { word := "chat", translation := "cat", exampleSentence := "Le chat dort." }
      [freshBankItem 3 { word := "pain", translation := "bread", exampleSentence := "Du pain frais." }] =
      [freshBankItem 3 { word := "pain", translation := "bread", exampleSentence := "Du pain frais." },
       freshBankItem 7 { word := "chat", translation := "cat", exampleSentence := "Le chat dort." }] :=
  ((addWordToBank_spec []
      [freshBankItem 3 { word := "pain", translation := "bread", exampleSentence := "Du pain frais." }]
      7 { word := "chat", translation := "cat", exampleSentence := "Le chat dort." }).2.2
    (by decide)).1

/-- The interval table read through the `min` cap is monotone. -/
theorem srsIntervalFor_mono : ∀ i j, i ≤ j → srsIntervalFor i ≤ srsIntervalFor j := by
  have hb : ∀ b < 7, ∀ a < 7, a ≤ b →
      srsIntervalsDays.getD a 0 ≤ srsIntervalsDays.getD b 0 := by decide
  intro i j hij
  unfold srsIntervalFor
  exact hb (min j (srsIntervalsDays.length - 1)) (by simp [srsIntervalsDays])
    (min i (srsIntervalsDays.length - 1)) (by simp [srsIntervalsDays])
    (min_le_min hij (le_refl _))

/-- One promotion step on a singleton bank holding the tracked entry. -/
theorem reviewWord_singleton_step (w : VocabularyItem) (d k n : Nat) :
    reviewWord d (freshBankItem d w)
      [{ word := w.word, translation := w.translation,
         exampleSentence := w.exampleSentence, srsLevel := k, nextReviewDate := n }] =
      [{ word := w.word, translation := w.translation,
         exampleSentence := w.exampleSentence, srsLevel := k + 1,
         nextReviewDate := d + srsIntervalFor (k + 1) }] := by
  unfold reviewWord
  simp [List.findIdx?, freshBankItem, promoteItem]

/-- Claim C3: for every `k ≤ 10`, promoting a fresh entry `k` times on its
creation date `D` yields `srsLevel = k` and
`nextReviewDate = D + intervalDays[min(k, 6)]`; the interval grows
monotonically and caps at 120 days beyond the table length. -/
theorem promote_schedule (w : VocabularyItem) (d k : Nat) (hk : k ≤ 10) :
    (fun bank => reviewWord d (freshBankItem d w) bank)^[k] [freshBankItem d w] =
      [{ word := w.word, translation := w.translation,
         exampleSentence := w.exampleSentence,
         srsLevel := k, nextReviewDate := d + srsIntervalFor k }]
    ∧ (∀ i j, i ≤ j → srsIntervalFor i ≤ srsIntervalFor j)
    ∧ (∀ j, 6 ≤ j → srsIntervalFor j = 120) := by
  refine ⟨?_, srsIntervalFor_mono, ?_⟩
  · clear hk
    induction k with
    | zero => rfl
    | succ k ih =>
      rw [Function.iterate_succ_apply', ih, reviewWord_singleton_step]
  · intro j hj
    unfold srsIntervalFor
    have : min j (srsIntervalsDays.length - 1) = 6 := by
      simp [srsIntervalsDays]
      omega
    rw [this]
    rfl

/-- Inserting an entry whose date differs from `n` does not change the
date-`n` slice of the list. -/
theorem filter_orderedInsert_date_ne (x : VocabularyBankItem)
    (l : List VocabularyBankItem) (n : Nat) (h : x.nextReviewDate ≠ n) :
    (List.orderedInsert dateLe x l).filter (fun it => it.nextReviewDate == n) =
      l.filter (fun it => it.nextReviewDate == n) := by
  induction l with
  | nil => simp [List.orderedInsert, h]
  | cons b l ih =>
    rw [List.orderedInsert]
    by_cases hbx : dateLe x b
    · rw [if_pos hbx]
      simp [List.filter_cons, h]
    · rw [if_neg hbx]
      simp [List.filter_cons, ih]

/-- Inserting an entry with date `n` puts it in front of the date-`n` slice:
`orderedInsert` with a non-strict key comparison is stable. -/
theorem filter_orderedInsert_date_eq (x : VocabularyBankItem)
    (l : List VocabularyBankItem) (n : Nat) (h : x.nextReviewDate = n) :
    (List.orderedInsert dateLe x l).filter (fun it => it.nextReviewDate == n) =
      x :: l.filter (fun it => it.nextReviewDate == n) := by
  induction l with
  | nil => simp [List.orderedInsert, h]
  | cons b l ih =>
    rw [List.orderedInsert]
    by_cases hbx : dateLe x b
    · rw [if_pos hbx]
      simp [List.filter_cons, h]
    · rw [if_neg hbx]
      have hbn : b.nextReviewDate ≠ n := by
        unfold dateLe at hbx
        omega
      simp [List.filter_cons, hbn, ih]

/-- The date-sort is stable: each equal-date slice keeps its input order. -/
theorem filter_insertionSort_date (l : List VocabularyBankItem) (n : Nat) :
    (List.insertionSort dateLe l).filter (fun it => it.nextReviewDate == n) =
      l.filter (fun it => it.nextReviewDate == n) := by
  induction l with
  | nil => rfl
  | cons x l ih =>
    rw [List.insertionSort]
    by_cases hx : x.nextReviewDate = n
    · rw [filter_orderedInsert_date_eq _ _ _ hx, ih]
      simp [List.filter_cons, hx]
    · rw [filter_orderedInsert_date_ne _ _ _ hx, ih]
      simp [List.filter_cons, hx]

/-- Claim C4 (corrected): `wordsDueForReview today bank` consists of exactly
the entries due on or before `today`, sorted ascending by `nextReviewDate`
with equal-date entries kept in bank order (stable sort — the code breaks no
ties by headword), and it is idempotent. -/
theorem wordsDueForReview_spec (today : Nat) (bank : List VocabularyBankItem) :
    (wordsDueForReview today bank).Perm
        (bank.filter (fun item => item.nextReviewDate ≤ today))
    ∧ List.Sorted dateLe (wordsDueForReview today bank)
    ∧ (∀ n, (wordsDueForReview today bank).filter (fun it => it.nextReviewDate == n) =
        (bank.filter (fun item => item.nextReviewDate ≤ today)).filter
          (fun it => it.nextReviewDate == n))
    ∧ wordsDueForReview today (wordsDueForReview today bank) =
        wordsDueForReview today bank := by
  refine ⟨List.perm_insertionSort _ _, List.sorted_insertionSort _ _,
    fun n => filter_insertionSort_date _ n, ?_⟩
  have hmem : ∀ x ∈ wordsDueForReview today bank, x.nextReviewDate ≤ today := by
    intro x hx
    unfold wordsDueForReview at hx
    rw [List.mem_insertionSort, List.mem_filter] at hx
    exact of_decide_eq_true hx.2
  have h1 : (wordsDueForReview today bank).filter
      (fun item => item.nextReviewDate ≤ today) = wordsDueForReview today bank :=
    List.filter_eq_self.mpr (fun a ha => decide_eq_true (hmem a ha))
  calc wordsDueForReview today (wordsDueForReview today bank)
      = List.insertionSort dateLe ((wordsDueForReview today bank).filter
          (fun item => item.nextReviewDate ≤ today)) := rfl
    _ = List.insertionSort dateLe (wordsDueForReview today bank) := by rw [h1]
    _ = wordsDueForReview today bank :=
        List.Sorted.insertionSort_eq (List.sorted_insertionSort dateLe _)

/-- Character-code comparison used by the spec-side headword order. -/
def strLeAux : List Char → List Char → Bool
  | [], _ => true
  | _ :: _, [] => false
  | x :: xs, y :: ys => if x == y then strLeAux xs ys else decide (x.val < y.val)

/-- Lexicographic headword order (character codes), used only to state the
claim's tie-break requirement. -/
def strLeLex (a b : String) : Bool := strLeAux a.data b.data

/-- Modelled from the spec: the output order claim C4 asserts — ascending by
`nextReviewDate` with ties broken by headword ascending.  Stated from the
spec's words to compare against the code's sort. -/
def sortedByDateThenHeadword (l : List VocabularyBankItem) : Prop :=
  l.Pairwise (fun a b => a.nextReviewDate < b.nextReviewDate ∨
    (a.nextReviewDate = b.nextReviewDate ∧ strLeLex a.word b.word = true))

/-- Counterexample to claim C4 as stated: two entries due the same day stay
in bank order, so the output is not sorted by (date, headword) — the entry
with headword "zebre" precedes "arbre". -/
theorem wordsDueForReview_tiebreak_counterexample :
    wordsDueForReview 5
        [{ word := "zebre", translation := "zebra", exampleSentence := "Un zebre.",
           srsLevel := 0, nextReviewDate := 5 },
         { word := "arbre", translation := "tree", exampleSentence := "Un arbre.",
           srsLevel := 0, nextReviewDate := 5 }] =
      [{ word := "zebre", translation := "zebra", exampleSentence := "Un zebre.",
         srsLevel := 0, nextReviewDate := 5 },
       { word := "arbre", translation := "tree", exampleSentence := "Un arbre.",
         srsLevel := 0, nextReviewDate := 5 }]
    ∧ ¬ sortedByDateThenHeadword (wordsDueForReview 5
        [{ word := "zebre", translation := "zebra", exampleSentence := "Un zebre.",
           srsLevel := 0, nextReviewDate := 5 },
         { word := "arbre", translation := "tree", exampleSentence := "Un arbre.",
           srsLevel := 0, nextReviewDate := 5 }]) := by
  constructor
  · rfl
  · intro h
    unfold sortedByDateThenHeadword at h
    revert h
    decide

/-- Witness for claim C3: two promotions on the creation day land on
`D + 7`. -/
theorem promote_schedule_witness :
    (fun bank =>
        reviewWord 0 (freshBankItem 0 { word := "chat", translation := "cat", exampleSentence := "Le chat dort." }) bank)^[2]
      [freshBankItem 0 { word := "chat", translation := "cat", exampleSentence := "Le chat dort." }] =
      [{ word := "chat", translation := "cat", exampleSentence := "Le chat dort.",
         srsLevel := 2, nextReviewDate := 0 + srsIntervalFor 2 }] :=
  (promote_schedule { word := "chat", translation := "cat", exampleSentence := "Le chat dort." }
    0 2 (by decide)).1

/-- Claim C10: every scheduler mutation touches at most the addressed entry —
`reviewWord` keeps the bank's length and positions, leaves every entry whose
headword differs case-insensitively from the reviewed word unchanged in
place, is the identity when nothing matches, and `addWordToBank` only ever
appends (existing entries are never modified or removed). -/
theorem scheduler_frame_effects (today : Nat) (target : VocabularyBankItem)
    (bank : List VocabularyBankItem) (d : Nat) (w : VocabularyItem) :
    ((reviewWord today target bank).length = bank.length)
    ∧ (∀ j m, bank.get? j = some m →
        toLowerStr m.word ≠ toLowerStr target.word →
        (reviewWord today target bank).get? j = bank.get? j)
    ∧ ((∀ m ∈ bank, toLowerStr m.word ≠ toLowerStr target.word) →
        reviewWord today target bank = bank)
    ∧ (∃ tail, addWordToBank d w bank = bank ++ tail ∧ tail.length ≤ 1) := by
  refine ⟨?_, ?_, ?_, ?_⟩
  · cases hf : bank.findIdx? (fun item => toLowerStr item.word == toLowerStr target.word) with
    | none => simp [reviewWord, hf]
    | some i =>
      cases hg : bank.get? i with
      | none =>
        rw [List.get?_eq_getElem?] at hg
        simp [reviewWord, hf, hg]
      | some m =>
        rw [List.get?_eq_getElem?] at hg
        simp only [reviewWord, hf, List.get?_eq_getElem?, hg]
        exact List.length_set bank i _
  · intro j m hj hne
    cases hf : bank.findIdx? (fun item => toLowerStr item.word == toLowerStr target.word) with
    | none => simp [reviewWord, hf]
    | some i =>
      cases hg : bank.get? i with
      | none =>
        rw [List.get?_eq_getElem?] at hg
        simp [reviewWord, hf, hg]
      | some mi =>
        rcases List.findIdx?_eq_some_iff_getElem.mp hf with ⟨hi, hpi, _⟩
        have hji : j ≠ i := by
          intro hji
          subst hji
          rw [List.get?_eq_getElem? , List.getElem?_eq_getElem hi] at hj
          cases hj
          exact hne (eq_of_beq hpi)
        rw [List.get?_eq_getElem?] at hg
        simp only [reviewWord, hf, List.get?_eq_getElem?, hg]
        rw [List.getElem?_set_ne (Ne.symm hji)]
  · intro hall
    unfold reviewWord
    rw [List.findIdx?_eq_none_iff.mpr]
    intro x hx
    exact beq_eq_false_iff_ne.mpr (hall x hx)
  · unfold addWordToBank
    split
    · exact ⟨[], by simp⟩
    · exact ⟨[freshBankItem d w], rfl, le_refl 1⟩

/-- Witness for claim C10: reviewing a word absent from a concrete bank
leaves it unchanged. -/
theorem scheduler_frame_effects_witness :
    reviewWord 9
      { word := "chien", translation := "dog", exampleSentence := "Un chien.",
        srsLevel := 1, nextReviewDate := 4 }
      [{ word := "chat", translation := "cat", exampleSentence := "Un chat.",
         srsLevel := 0, nextReviewDate := 3 }] =
      [{ word := "chat", translation := "cat", exampleSentence := "Un chat.",
         srsLevel := 0, nextReviewDate := 3 }] :=
  (scheduler_frame_effects 9
    { word := "chien", translation := "dog", exampleSentence := "Un chien.",
      srsLevel := 1, nextReviewDate := 4 }
    [{ word := "chat", translation := "cat", exampleSentence := "Un chat.",
       srsLevel := 0, nextReviewDate := 3 }]
    0 { word := "x", translation := "y", exampleSentence := "z" }).2.2.1
    (by decide)

/-! ### Model Gateway (`GeminiService` in `gemini.service.ts`)

`sendMessage` drives a `while (attempt < maxRetries)` loop around one
`generateContent` call per attempt.  The environment is embedded as a
function from the attempt number to that attempt's outcome (a raw response
text, or a thrown error), and JSON parsing of the response body as a
function argument, so the control flow of the source is reproduced exactly.
-/

/-- The two roles of a raw-history `Content` entry. -/
inductive Role where
  | user
  | model
deriving DecidableEq

/-- One entry of the raw model-exchange history (`Content` with one text
part). -/
structure Content where
  role : Role
  text : String
deriving DecidableEq

/-- `PronunciationFeedback` from `gemini.service.ts`. -/
structure PronunciationFeedback where
  score : Nat
  feedback : String
  tip : String
deriving DecidableEq

/-- `Message` from `gemini.service.ts`. -/
structure Message where
  role : Role
  text : String
  vocabulary : List VocabularyItem := []
  pronunciationFeedback : Option PronunciationFeedback := none
deriving DecidableEq

/-- The fields `sendMessage` reads out of the parsed JSON reply. -/
structure ReplyData where
  response : String
  vocabulary : List VocabularyItem
  pronunciationFeedback : Option PronunciationFeedback
deriving DecidableEq

/-- A thrown error as `isRateLimitError` inspects it: the `message` string,
plus the structured `error.code` / `error.status` fields when
`JSON.parse(error.message)` succeeds (both `none` when it does not). -/
structure ErrInfo where
  structCode : Option Nat
  structStatus : Option String
  message : String
deriving DecidableEq

/-- `GeminiService.isRateLimitError`: a structured 429 code or
RESOURCE_EXHAUSTED status, else a substring fallback on the message; an
empty message short-circuits to `false` (the `error.message` truthiness
guard). -/
def isRateLimitError (e : ErrInfo) : Bool :=
  if e.message = "" then false
  else if e.structCode == some 429 || e.structStatus == some "RESOURCE_EXHAUSTED" then true
  else strIncludes e.message "429" || strIncludes (toLowerStr e.message) "resource_exhausted"

/-- Outcome of one `generateContent` call: the response text, or a thrown
transport/quota error. -/
inductive AttemptOutcome where
  | ok (responseText : String)
  | thrown (e : ErrInfo)
deriving DecidableEq

/-- The body of the `try` block for one attempt: trim the response text and
parse it; a throw at either stage lands in the shared `catch`. -/
def runAttempt (parse : String → Except ErrInfo ReplyData) :
    AttemptOutcome → Except ErrInfo (String × ReplyData)
  | .ok raw =>
    match parse (trimStr raw) with
    | .ok data => .ok (trimStr raw, data)
    | .error e => .error e
  | .thrown e => .error e

/-- What one `sendMessage` call produces, with the raw history it leaves
behind and instrumentation of the retry loop (backoff waits performed, and
how many attempts ran). -/
structure SendResult where
  modelResponse : Message
  userFeedback : Option PronunciationFeedback
  history : List Content
  delays : List Nat
  attemptsUsed : Nat
  succeeded : Bool
deriving DecidableEq

/-- Generic learner-facing apology of the error path. -/
def apologyGeneric : String := "Désolé, une erreur est survenue. Veuillez réessayer."

/-- Apology chosen when the terminal error is rate-limit classified. -/
def apologyOverloaded : String :=
  "Le service est actuellement surchargé. Veuillez patienter un moment avant de réessayer."

/-- Apology chosen when the terminal error message mentions JSON. -/
def apologyJson : String :=
  "Désolé, j'ai eu un problème avec ma réponse. Essayons encore !"

/-- Text of the unreachable fallthrough after the `while` loop. -/
def apologyExhausted : String :=
  "Désolé, une erreur inattendue est survenue après plusieurs tentatives."

/-- Error-path reply text selection of `sendMessage`. -/
def errorReplyText (e : ErrInfo) : String :=
  if isRateLimitError e then apologyOverloaded
  else if strIncludes e.message "JSON" then apologyJson
  else apologyGeneric

/-- `maxRetries` constant of `sendMessage` (3 attempts in total). -/
def maxRetries : Nat := 3

/-- The `while (attempt < maxRetries)` loop of `GeminiService.sendMessage`,
with `fuel = maxRetries - attempt` making the recursion structural.  On
success the `(userText, trimmed rawReply)` pair is appended to the history;
a rate-limited failure with retries left waits `delay` and doubles it; any
other failure returns the apology reply with the history untouched. -/
def sendLoop (parse : String → Except ErrInfo ReplyData) (env : Nat → AttemptOutcome)
    (messageText : String) (history : List Content) :
    Nat → Nat → List Nat → Nat → Nat → SendResult
  | _attempt, _delay, delays, used, 0 =>
    { modelResponse := { role := .model, text := apologyExhausted },
      userFeedback := none, history := history, delays := delays,
      attemptsUsed := used, succeeded := false }
  | attempt, delay, delays, used, fuel + 1 =>
    match runAttempt parse (env attempt) with
    | .ok (jsonText, data) =>
      { modelResponse :=
          { role := .model, text := data.response, vocabulary := data.vocabulary },
        userFeedback := data.pronunciationFeedback,
        history := history ++
          [{ role := .user, text := messageText }, { role := .model, text := jsonText }],
        delays := delays, attemptsUsed := used + 1, succeeded := true }
    | .error e =>
      if isRateLimitError e && decide (attempt < maxRetries - 1) then
        sendLoop parse env messageText history
          (attempt + 1) (delay * 2) (delays ++ [delay]) (used + 1) fuel
      else
        { modelResponse := { role := .model, text := errorReplyText e },
          userFeedback := none, history := history, delays := delays,
          attemptsUsed := used + 1, succeeded := false }

/-- `GeminiService.sendMessage`: start at attempt 0 with a 1000 ms delay. -/
def sendMessage (parse : String → Except ErrInfo ReplyData) (env : Nat → AttemptOutcome)
    (messageText : String) (history : List Content) : SendResult :=
  sendLoop parse env messageText history 0 1000 [] 0 maxRetries

/-- A rate-limited failure with retries left recurses with doubled delay. -/
theorem sendLoop_retry_step (parse : String → Except ErrInfo ReplyData)
    (env : Nat → AttemptOutcome) (msg : String) (hist : List Content)
    (attempt delay : Nat) (delays : List Nat) (used fuel : Nat) (e : ErrInfo)
    (hrun : runAttempt parse (env attempt) = .error e)
    (hrl : isRateLimitError e = true) (hlt : attempt < maxRetries - 1) :
    sendLoop parse env msg hist attempt delay delays used (fuel + 1) =
      sendLoop parse env msg hist (attempt + 1) (delay * 2)
        (delays ++ [delay]) (used + 1) fuel := by
  simp [sendLoop, hrun, hrl, hlt]

/-- A failure that is not retried (not rate limited, or no retries left)
returns the apology reply without touching the history. -/
theorem sendLoop_terminal_step (parse : String → Except ErrInfo ReplyData)
    (env : Nat → AttemptOutcome) (msg : String) (hist : List Content)
    (attempt delay : Nat) (delays : List Nat) (used fuel : Nat) (e : ErrInfo)
    (hrun : runAttempt parse (env attempt) = .error e)
    (hterm : isRateLimitError e = false ∨ ¬ attempt < maxRetries - 1) :
    sendLoop parse env msg hist attempt delay delays used (fuel + 1) =
      { modelResponse := { role := .model, text := errorReplyText e },
        userFeedback := none, history := hist, delays := delays,
        attemptsUsed := used + 1, succeeded := false } := by
  have hcond : (isRateLimitError e && decide (attempt < maxRetries - 1)) = false := by
    rcases hterm with h | h <;> simp [h]
  simp [sendLoop, hrun, hcond]

/-- A successful attempt returns the parsed reply and appends the
`(userText, rawReplyText)` pair. -/
theorem sendLoop_success_step (parse : String → Except ErrInfo ReplyData)
    (env : Nat → AttemptOutcome) (msg : String) (hist : List Content)
    (attempt delay : Nat) (delays : List Nat) (used fuel : Nat)
    (jsonText : String) (data : ReplyData)
    (hrun : runAttempt parse (env attempt) = .ok (jsonText, data)) :
    sendLoop parse env msg hist attempt delay delays used (fuel + 1) =
      { modelResponse :=
          { role := .model, text := data.response, vocabulary := data.vocabulary },
        userFeedback := data.pronunciationFeedback,
        history := hist ++
          [{ role := .user, text := msg }, { role := .model, text := jsonText }],
        delays := delays, attemptsUsed := used + 1, succeeded := true } := by
  simp [sendLoop, hrun]


/-- Claim C1: only rate-limited failures are retried — three consecutive
rate-limited failures give exactly 2 retries with backoff waits of 1000 ms
then 2000 ms and end in the terminal rate-limited reply without a further
attempt; a rate-limited failure followed by a success gives exactly 1 retry
and succeeds; a non-rate-limited failure is never retried. -/
theorem gateway_retry_policy (parse : String → Except ErrInfo ReplyData)
    (msg : String) (hist : List Content)
    (envA envB envC : Nat → AttemptOutcome) (e0 e1 e2 f0 g0 : ErrInfo)
    (raw : String) (data : ReplyData)
    (hA0 : envA 0 = .thrown e0) (hA1 : envA 1 = .thrown e1)
    (hA2 : envA 2 = .thrown e2)
    (hr0 : isRateLimitError e0 = true) (hr1 : isRateLimitError e1 = true)
    (hr2 : isRateLimitError e2 = true)
    (hB0 : envB 0 = .thrown f0) (hrB : isRateLimitError f0 = true)
    (hB1 : envB 1 = .ok raw) (hparse : parse (trimStr raw) = .ok data)
    (hC0 : envC 0 = .thrown g0) (hnr : isRateLimitError g0 = false) :
    ((sendMessage parse envA msg hist).delays = [1000, 2000]
      ∧ (sendMessage parse envA msg hist).attemptsUsed = 3
      ∧ (sendMessage parse envA msg hist).succeeded = false
      ∧ (sendMessage parse envA msg hist).modelResponse.text = apologyOverloaded)
    ∧ ((sendMessage parse envB msg hist).delays = [1000]
      ∧ (sendMessage parse envB msg hist).attemptsUsed = 2
      ∧ (sendMessage parse envB msg hist).succeeded = true
      ∧ (sendMessage parse envB msg hist).modelResponse.text = data.response)
    ∧ ((sendMessage parse envC msg hist).delays = []
      ∧ (sendMessage parse envC msg hist).attemptsUsed = 1
      ∧ (sendMessage parse envC msg hist).succeeded = false) := by
  have hrunA0 : runAttempt parse (envA 0) = .error e0 := by rw [hA0]; rfl
  have hrunA1 : runAttempt parse (envA 1) = .error e1 := by rw [hA1]; rfl
  have hrunA2 : runAttempt parse (envA 2) = .error e2 := by rw [hA2]; rfl
  have hrunB0 : runAttempt parse (envB 0) = .error f0 := by rw [hB0]; rfl
  have hrunB1 : runAttempt parse (envB 1) = .ok (trimStr raw, data) := by
    rw [hB1]
    simp [runAttempt, hparse]
  have hrunC0 : runAttempt parse (envC 0) = .error g0 := by rw [hC0]; rfl
  have hA : sendMessage parse envA msg hist =
      { modelResponse := { role := .model, text := errorReplyText e2 },
        userFeedback := none, history := hist, delays := [1000, 2000],
        attemptsUsed := 3, succeeded := false } := by
    calc sendMessage parse envA msg hist
        = sendLoop parse envA msg hist 0 1000 [] 0 3 := rfl
      _ = sendLoop parse envA msg hist 1 2000 [1000] 1 2 :=
          sendLoop_retry_step parse envA msg hist 0 1000 [] 0 2 e0 hrunA0 hr0 (by decide)
      _ = sendLoop parse envA msg hist 2 4000 [1000, 2000] 2 1 :=
          sendLoop_retry_step parse envA msg hist 1 2000 [1000] 1 1 e1 hrunA1 hr1 (by decide)
      _ = { modelResponse := { role := .model, text := errorReplyText e2 },
            userFeedback := none, history := hist, delays := [1000, 2000],
            attemptsUsed := 3, succeeded := false } :=
          sendLoop_terminal_step parse envA msg hist 2 4000 [1000, 2000] 2 0 e2 hrunA2
            (Or.inr (by decide))
  have hB : sendMessage parse envB msg hist =
      { modelResponse :=
          { role := .model, text := data.response, vocabulary := data.vocabulary },
        userFeedback := data.pronunciationFeedback,
        history := hist ++
          [{ role := .user, text := msg }, { role := .model, text := trimStr raw }],
        delays := [1000], attemptsUsed := 2, succeeded := true } := by
    calc sendMessage parse envB msg hist
        = sendLoop parse envB msg hist 0 1000 [] 0 3 := rfl
      _ = sendLoop parse envB msg hist 1 2000 [1000] 1 2 :=
          sendLoop_retry_step parse envB msg hist 0 1000 [] 0 2 f0 hrunB0 hrB (by decide)
      _ = _ :=
          sendLoop_success_step parse envB msg hist 1 2000 [1000] 1 1 (trimStr raw) data hrunB1
  have hC : sendMessage parse envC msg hist =
      { modelResponse := { role := .model, text := errorReplyText g0 },
        userFeedback := none, history := hist, delays := [],
        attemptsUsed := 1, succeeded := false } :=
    sendLoop_terminal_step parse envC msg hist 0 1000 [] 0 2 g0 hrunC0 (Or.inl hnr)
  refine ⟨⟨?_, ?_, ?_, ?_⟩, ⟨?_, ?_, ?_, ?_⟩, ?_, ?_, ?_⟩ <;>
    simp [hA, hB, hC, errorReplyText, hr2]

/-- Witness for claim C1 at a concrete environment: a structured 429 error
on every attempt, then an environment that recovers, then a plain failure. -/
theorem gateway_retry_policy_witness :
    (sendMessage (fun s => .ok { response := s, vocabulary := [], pronunciationFeedback := none })
        (fun _ => .thrown { structCode := some 429, structStatus := none, message := "429" })
        "Bonjour" []).delays = [1000, 2000]
    ∧ (sendMessage (fun s => .ok { response := s, vocabulary := [], pronunciationFeedback := none })
        (fun i => if i = 0 then .thrown { structCode := some 429, structStatus := none, message := "429" }
                  else .ok "reply")
        "Bonjour" []).attemptsUsed = 2
    ∧ (sendMessage (fun s => .ok { response := s, vocabulary := [], pronunciationFeedback := none })
        (fun _ => .thrown { structCode := none, structStatus := none, message := "boom" })
        "Bonjour" []).attemptsUsed = 1 := by
  have h := gateway_retry_policy
    (fun s => .ok { response := s, vocabulary := [], pronunciationFeedback := none })
    "Bonjour" []
    (fun _ => .thrown { structCode := some 429, structStatus := none, message := "429" })
    (fun i => if i = 0 then .thrown { structCode := some 429, structStatus := none, message := "429" }
              else .ok "reply")
    (fun _ => .thrown { structCode := none, structStatus := none, message := "boom" })
    { structCode := some 429, structStatus := none, message := "429" }
    { structCode := some 429, structStatus := none, message := "429" }
    { structCode := some 429, structStatus := none, message := "429" }
    { structCode := some 429, structStatus := none, message := "429" }
    { structCode := none, structStatus := none, message := "boom" }
    "reply" { response := "reply", vocabulary := [], pronunciationFeedback := none }
    rfl rfl rfl (by decide) (by decide) (by decide) rfl (by decide) rfl rfl
    rfl (by decide)
  exact ⟨h.1.1, h.2.1.2.1, h.2.2.2.1⟩

/-- The raw history either gains exactly the user/model pair (success) or is
untouched (any failure), uniformly over the loop state. -/
theorem sendLoop_history_frame (parse : String → Except ErrInfo ReplyData)
    (env : Nat → AttemptOutcome) (msg : String) (hist : List Content) :
    ∀ fuel attempt delay delays used,
    ((sendLoop parse env msg hist attempt delay delays used fuel).succeeded = true →
      ∃ raw, (sendLoop parse env msg hist attempt delay delays used fuel).history =
        hist ++ [{ role := .user, text := msg }, { role := .model, text := raw }])
    ∧ ((sendLoop parse env msg hist attempt delay delays used fuel).succeeded = false →
      (sendLoop parse env msg hist attempt delay delays used fuel).history = hist) := by
  intro fuel
  induction fuel with
  | zero =>
    intro attempt delay delays used
    exact ⟨fun h => absurd h (by simp [sendLoop]), fun _ => rfl⟩
  | succ fuel ih =>
    intro attempt delay delays used
    cases hrun : runAttempt parse (env attempt) with
    | ok pair =>
      obtain ⟨jsonText, data⟩ := pair
      rw [sendLoop_success_step parse env msg hist attempt delay delays used fuel
        jsonText data hrun]
      exact ⟨fun _ => ⟨jsonText, rfl⟩, fun h => absurd h (by simp)⟩
    | error e =>
      by_cases hcond : isRateLimitError e = true ∧ attempt < maxRetries - 1
      · rw [sendLoop_retry_step parse env msg hist attempt delay delays used fuel e hrun
          hcond.1 hcond.2]
        exact ih (attempt + 1) (delay * 2) (delays ++ [delay]) (used + 1)
      · rw [sendLoop_terminal_step parse env msg hist attempt delay delays used fuel e hrun
          (by rcases Decidable.not_and_iff_or_not.mp hcond with h | h
              · exact Or.inl (by simpa using h)
              · exact Or.inr h)]
        exact ⟨fun h => absurd h (by simp), fun _ => rfl⟩

/-- Claim C7: `sendMessage` mutates the raw history only on success,
appending exactly the `(userText, rawReplyText)` pair in that order; on any
failing exchange the history is returned unmodified. -/
theorem gateway_history_on_success_only (parse : String → Except ErrInfo ReplyData)
    (env : Nat → AttemptOutcome) (msg : String) (hist : List Content) :
    ((sendMessage parse env msg hist).succeeded = true →
      ∃ raw, (sendMessage parse env msg hist).history =
        hist ++ [{ role := .user, text := msg }, { role := .model, text := raw }])
    ∧ ((sendMessage parse env msg hist).succeeded = false →
      (sendMessage parse env msg hist).history = hist) :=
  sendLoop_history_frame parse env msg hist maxRetries 0 1000 [] 0

/-- Witness for claim C7: a concrete failing exchange leaves a concrete
history untouched. -/
theorem gateway_history_on_success_only_witness :
    (sendMessage (fun _ => .error { structCode := none, structStatus := none, message := "boom" })
        (fun _ => .ok "raw")
        "Salut" [{ role := .user, text := "a" }, { role := .model, text := "b" }]).history =
      [{ role := .user, text := "a" }, { role := .model, text := "b" }] :=
  (gateway_history_on_success_only
    (fun _ => .error { structCode := none, structStatus := none, message := "boom" })
    (fun _ => .ok "raw") "Salut"
    [{ role := .user, text := "a" }, { role := .model, text := "b" }]).2 rfl

/-! ### Conversation session: feedback binding (`ChatComponent.sendMessage`)

The closure passed to `messages.update` scans backward for the most recent
user message that does not yet carry pronunciation feedback, attaches the
reply's feedback there when both exist, and appends the model reply.
-/

/-- The predicate of the backward scan:
`newMessages[i].role === 'user' && !newMessages[i].pronunciationFeedback`. -/
def isUnfedbackUser (m : Message) : Bool :=
  m.role == .user && m.pronunciationFeedback == none

/-- Index of the most recent user message without feedback (the source's
`lastUserMsgIndex`, with `none` for `-1`). -/
def lastUnfedbackUserIdx : List Message → Option Nat
  | [] => none
  | m :: ms =>
    match lastUnfedbackUserIdx ms with
    | some i => some (i + 1)
    | none => if isUnfedbackUser m then some 0 else none

/-- The in-place update `{ ...msg, pronunciationFeedback: userFeedback }`. -/
def withFeedback (m : Message) (f : PronunciationFeedback) : Message :=
  { m with pronunciationFeedback := some f }

/-- The `messages.update` closure of `ChatComponent.sendMessage`: attach the
feedback (when present and an eligible user message exists) and append the
model reply. -/
def attachFeedbackAndAppendReply (msgs : List Message)
    (fb : Option PronunciationFeedback) (reply : Message) : List Message :=
  match lastUnfedbackUserIdx msgs, fb with
  | some i, some f =>
    (match msgs.get? i with
     | some m => msgs.set i (withFeedback m f)
     | none => msgs) ++ [reply]
  | _, _ => msgs ++ [reply]

/-- If no message is an unfedback user turn, the scan finds nothing. -/
theorem lastUnfedbackUserIdx_eq_none (ms : List Message)
    (hall : ∀ m ∈ ms, isUnfedbackUser m = false) :
    lastUnfedbackUserIdx ms = none := by
  induction ms with
  | nil => rfl
  | cons m ms ih =>
    simp only [lastUnfedbackUserIdx]
    rw [ih (fun m' hm' => hall m' (List.mem_cons_of_mem _ hm'))]
    simp [hall m (List.mem_cons_self m ms)]

/-- If the scan finds nothing, no message is an unfedback user turn. -/
theorem lastUnfedbackUserIdx_none_sound (ms : List Message)
    (h : lastUnfedbackUserIdx ms = none) :
    ∀ m ∈ ms, isUnfedbackUser m = false := by
  induction ms with
  | nil => intro m hm; cases hm
  | cons m ms ih =>
    simp only [lastUnfedbackUserIdx] at h
    cases htl : lastUnfedbackUserIdx ms with
    | some k => rw [htl] at h; cases h
    | none =>
      rw [htl] at h
      by_cases hm : isUnfedbackUser m = true
      · rw [if_pos hm] at h; cases h
      · intro m' hm'
        rcases List.mem_cons.mp hm' with rfl | hmem
        · simpa using hm
        · exact ih htl m' hmem

/-- The scan returns the greatest index holding an unfedback user turn. -/
theorem lastUnfedbackUserIdx_some_sound (ms : List Message) (i : Nat)
    (h : lastUnfedbackUserIdx ms = some i) :
    (∃ m, ms.get? i = some m ∧ isUnfedbackUser m = true)
    ∧ (∀ j, i < j → ∀ m2, ms.get? j = some m2 → isUnfedbackUser m2 = false) := by
  induction ms generalizing i with
  | nil => cases h
  | cons m ms ih =>
    simp only [lastUnfedbackUserIdx] at h
    cases htl : lastUnfedbackUserIdx ms with
    | some k =>
      rw [htl] at h
      cases h
      obtain ⟨⟨mm, hget, hP⟩, hafter⟩ := ih k htl
      refine ⟨⟨mm, by simpa using hget, hP⟩, ?_⟩
      intro j hj m2 hg2
      cases j with
      | zero => omega
      | succ j' => exact hafter j' (by omega) m2 (by simpa using hg2)
    | none =>
      rw [htl] at h
      by_cases hm : isUnfedbackUser m = true
      · rw [if_pos hm] at h
        cases h
        refine ⟨⟨m, rfl, hm⟩, ?_⟩
        intro j hj m2 hg2
        cases j with
        | zero => omega
        | succ j' =>
          simp only [List.get?_cons_succ] at hg2
          exact lastUnfedbackUserIdx_none_sound ms htl m2
            (List.get?_mem hg2)
      · rw [if_neg hm] at h
        cases h

/-- Claim C5: feedback carried by a reply is attached to the most recent
learner turn that does not already carry feedback (backward scan), altering
no other turn; with no eligible learner turn it is discarded, and a reply
carrying no feedback leaves every turn unchanged. -/
theorem feedback_binding (msgs : List Message)
    (fb : Option PronunciationFeedback) (reply : Message) :
    (attachFeedbackAndAppendReply msgs none reply = msgs ++ [reply])
    ∧ ((∀ m ∈ msgs, isUnfedbackUser m = false) →
        attachFeedbackAndAppendReply msgs fb reply = msgs ++ [reply])
    ∧ (∀ f i m, fb = some f → lastUnfedbackUserIdx msgs = some i →
        msgs.get? i = some m →
        (attachFeedbackAndAppendReply msgs fb reply =
            (msgs.set i (withFeedback m f)) ++ [reply])
        ∧ isUnfedbackUser m = true
        ∧ (∀ j, i < j → ∀ m2, msgs.get? j = some m2 → isUnfedbackUser m2 = false)
        ∧ (∀ j, j ≠ i → (msgs.set i (withFeedback m f)).get? j = msgs.get? j)
        ∧ (withFeedback m f).role = m.role ∧ (withFeedback m f).text = m.text
        ∧ (withFeedback m f).pronunciationFeedback = some f) := by
  refine ⟨?_, ?_, ?_⟩
  · cases h : lastUnfedbackUserIdx msgs <;> simp [attachFeedbackAndAppendReply, h]
  · intro hall
    have hnone := lastUnfedbackUserIdx_eq_none msgs hall
    cases fb <;> simp [attachFeedbackAndAppendReply, hnone]
  · intro f i m hfb hidx hget
    subst hfb
    obtain ⟨⟨mm, hget2, hP⟩, hafter⟩ := lastUnfedbackUserIdx_some_sound msgs i hidx
    have hmm : mm = m := by rw [hget] at hget2; cases hget2; rfl
    subst hmm
    refine ⟨?_, hP, hafter, ?_, rfl, rfl, rfl⟩
    · simp only [attachFeedbackAndAppendReply, hidx, hget]
    · intro j hj
      rw [List.get?_eq_getElem?, List.get?_eq_getElem?, List.getElem?_set_ne (Ne.symm hj)]

/-- Witness for claim C5: a single unfedback learner turn gains a concrete
feedback record. -/
theorem feedback_binding_witness :
    attachFeedbackAndAppendReply [{ role := .user, text := "bonjour" }]
        (some { score := 4, feedback := "good", tip := "slower" })
        { role := .model, text := "salut" } =
      [{ role := .user, text := "bonjour",
         pronunciationFeedback := some { score := 4, feedback := "good", tip := "slower" } },
       { role := .model, text := "salut" }] :=
  ((feedback_binding [{ role := .user, text := "bonjour" }]
      (some { score := 4, feedback := "good", tip := "slower" })
      { role := .model, text := "salut" }).2.2
    { score := 4, feedback := "good", tip := "slower" } 0
    { role := .user, text := "bonjour" } rfl rfl rfl).1

/-! ### Interrupt stack (`startMicroLesson` / `endMicroLesson`)

`ChatComponent` keeps the live session in `messages` (visible turns) plus the
Gateway's raw `history`; `savedConversationState` is the single interrupt
frame, `activeMicroLesson` the active-lesson marker.  The gemini service's
`getHistory`/`setHistory` accessors are embedded as direct reads/writes of
the `history` field.
-/

/-- The slice of `ChatComponent` state the micro-lesson logic touches. -/
structure ChatState where
  messages : List Message
  history : List Content
  savedConversationState : Option (List Message × List Content)
  activeMicroLesson : Option String
  errorMsg : Option String
deriving DecidableEq

/-- Titles of `grammarTopicsData` in `chat.component.ts`. -/
def grammarTopicTitles : List String :=
  ["Present Tense (Le Présent)", "Gender of Nouns (Le Genre)",
   "Past Tense (Le Passé Composé)"]

/-- `GeminiService.startNewConversation`: reset the raw history to empty and
send the opening prompt. -/
def startNewConversation (parse : String → Except ErrInfo ReplyData)
    (env : Nat → AttemptOutcome) (openingPrompt : String) : SendResult :=
  sendMessage parse env openingPrompt []

/-- `ChatComponent.startMicroLesson`: save the current (messages, history)
frame first, then — when the suggested topic is in the catalog — start a new
conversation for the lesson; an unknown topic only sets an error message
(the frame stays overwritten, mirroring the early return in the source). -/
def startMicroLesson (parse : String → Except ErrInfo ReplyData)
    (env : Nat → AttemptOutcome) (suggestionTopic openingPrompt : String)
    (s : ChatState) : ChatState :=
  let saved : ChatState := { s with savedConversationState := some (s.messages, s.history) }
  if grammarTopicTitles.contains suggestionTopic then
    let r := startNewConversation parse env openingPrompt
    { saved with activeMicroLesson := some suggestionTopic,
                 messages := [r.modelResponse],
                 history := r.history,
                 errorMsg := none }
  else
    { saved with errorMsg := some "Could not find a micro-lesson for the requested topic." }

/-- The fixed transition turn appended on resumption. -/
def resumeMessage : Message :=
  { role := .model, text := "Super ! Continuons notre conversation." }

/-- `ChatComponent.endMicroLesson`: restore the saved frame when one exists
(silently keeping the current state otherwise), clear the active-lesson
marker, and append the transition turn. -/
def endMicroLesson (s : ChatState) : ChatState :=
  let s1 : ChatState :=
    match s.savedConversationState with
    | some (m, h) => { s with messages := m, history := h, savedConversationState := none }
    | none => s
  { s1 with activeMicroLesson := none, messages := s1.messages ++ [resumeMessage] }

/-- Claim C6: `startMicroLesson` with a known topic followed by
`endMicroLesson` restores the turn sequence and the raw history exactly,
with one appended tutor transition turn. -/
theorem microlesson_roundtrip (parse : String → Except ErrInfo ReplyData)
    (env : Nat → AttemptOutcome) (topic openingPrompt : String) (s : ChatState)
    (htopic : grammarTopicTitles.contains topic = true) :
    (endMicroLesson (startMicroLesson parse env topic openingPrompt s)).messages =
        s.messages ++ [resumeMessage]
    ∧ (endMicroLesson (startMicroLesson parse env topic openingPrompt s)).history =
        s.history
    ∧ (endMicroLesson (startMicroLesson parse env topic openingPrompt s)).savedConversationState =
        none
    ∧ resumeMessage.role = Role.model := by
  have hmem : topic ∈ grammarTopicTitles := by simpa using htopic
  refine ⟨?_, ?_, ?_, rfl⟩ <;> simp [startMicroLesson, endMicroLesson, hmem]

/-- Witness for claim C6 at a concrete state and topic. -/
theorem microlesson_roundtrip_witness :
    (endMicroLesson (startMicroLesson
        (fun t => .ok { response := t, vocabulary := [], pronunciationFeedback := none })
        (fun _ => .ok "lesson")
        "Gender of Nouns (Le Genre)" "go"
        { messages := [{ role := .user, text := "avant" }],
          history := [{ role := .user, text := "avant" }],
          savedConversationState := none, activeMicroLesson := none,
          errorMsg := none })).messages =
      [{ role := .user, text := "avant" }] ++ [resumeMessage] :=
  (microlesson_roundtrip
    (fun t => .ok { response := t, vocabulary := [], pronunciationFeedback := none })
    (fun _ => .ok "lesson")
    "Gender of Nouns (Le Genre)" "go"
    { messages := [{ role := .user, text := "avant" }],
      history := [{ role := .user, text := "avant" }],
      savedConversationState := none, activeMicroLesson := none,
      errorMsg := none } (by decide)).1

/-- Counterexample to claim C8 as stated: with a micro-lesson already
active, a second `startMicroLesson` is not rejected — it overwrites the
saved frame; and `endMicroLesson` with nothing saved does not fail — it
appends the transition turn and proceeds. -/
theorem microlesson_typed_errors_counterexample :
    ((startMicroLesson
        (fun t => .ok { response := t, vocabulary := [], pronunciationFeedback := none })
        (fun _ => .ok "lesson")
        "Gender of Nouns (Le Genre)" "go"
        { messages := [{ role := .model, text := "in lesson" }],
          history := [{ role := .user, text := "go" }],
          savedConversationState := some ([{ role := .user, text := "main" }],
            [{ role := .user, text := "main" }]),
          activeMicroLesson := some "Present Tense (Le Présent)",
          errorMsg := none }).savedConversationState ≠
      some ([{ role := .user, text := "main" }], [{ role := .user, text := "main" }]))
    ∧ (endMicroLesson
        { messages := [{ role := .model, text := "salut" }], history := [],
          savedConversationState := none, activeMicroLesson := none,
          errorMsg := none }).messages =
      [{ role := .model, text := "salut" }] ++ [resumeMessage] := by
  exact ⟨by decide, rfl⟩

/-- Claim C8 (amended): `startMicroLesson` always overwrites the interrupt
frame with the current (messages, history) pair — a second call while a
lesson is active is not rejected — and `endMicroLesson` with nothing saved
does not fail: it leaves messages and history unrestored, clears the
active-lesson marker and appends the transition turn. -/
theorem microlesson_no_typed_errors (parse : String → Except ErrInfo ReplyData)
    (env : Nat → AttemptOutcome) (topic openingPrompt : String) (s : ChatState) :
    ((startMicroLesson parse env topic openingPrompt s).savedConversationState =
        some (s.messages, s.history))
    ∧ (s.savedConversationState = none →
        endMicroLesson s =
          { s with activeMicroLesson := none,
                   messages := s.messages ++ [resumeMessage] }) := by
  constructor
  · unfold startMicroLesson
    split <;> rfl
  · intro hnone
    simp [endMicroLesson, hnone]

/-- Witness for claim C8 (amended) at a concrete suspended state. -/
theorem microlesson_no_typed_errors_witness :
    (startMicroLesson
        (fun t => .ok { response := t, vocabulary := [], pronunciationFeedback := none })
        (fun _ => .ok "lesson")
        "Past Tense (Le Passé Composé)" "go"
        { messages := [{ role := .model, text := "in lesson" }],
          history := [],
          savedConversationState := some ([], []),
          activeMicroLesson := some "Present Tense (Le Présent)",
          errorMsg := none }).savedConversationState =
      some ([{ role := .model, text := "in lesson" }], []) :=
  (microlesson_no_typed_errors
    (fun t => .ok { response := t, vocabulary := [], pronunciationFeedback := none })
    (fun _ => .ok "lesson")
    "Past Tense (Le Passé Composé)" "go"
    { messages := [{ role := .model, text := "in lesson" }],
      history := [],
      savedConversationState := some ([], []),
      activeMicroLesson := some "Present Tense (Le Présent)",
      errorMsg := none }).1

/-! ### Session exit (`ChatComponent.endSessionAndShowReview`) -/

/-- `SessionStats` from `chat.component.ts`. -/
structure SessionStats where
  wordsSaved : Nat
  scenarioCompleted : Option String
  grammarCompleted : Option String
deriving DecidableEq

/-- Observable outcome of the exit path: whether the session-review Gateway
exchange is issued, whether `sessionEnded` is emitted immediately (with the
stats it carries), and whether the review modal opens. -/
structure ExitOutcome where
  reviewRequested : Bool
  statsEmitted : Option SessionStats
  showReview : Bool
deriving DecidableEq

/-- `ChatComponent.endSessionAndShowReview`: if there is less than one
learner message AND no active listening exercise, emit the stats and return
without any Gateway call; otherwise open the review and issue the
`getSessionReview` exchange. -/
def endSessionAndShowReview (messages : List Message)
    (activeListeningExercise : Option String) (stats : SessionStats) : ExitOutcome :=
  if (messages.filter (fun m => m.role == .user)).length < 1
      ∧ activeListeningExercise = none then
    { reviewRequested := false, statsEmitted := some stats, showReview := false }
  else
    { reviewRequested := true, statsEmitted := none, showReview := true }

/-- Counterexample to claim C9 as stated: a session with zero learner turns
but an active listening exercise does issue the review exchange instead of
transitioning straight to Idle. -/
theorem exit_skips_review_counterexample :
    (List.filter (fun m => m.role == Role.user) ([] : List Message)).length < 1
    ∧ (endSessionAndShowReview [] (some "Listening")
        { wordsSaved := 0, scenarioCompleted := none, grammarCompleted := none }).reviewRequested
      = true
    ∧ (endSessionAndShowReview [] (some "Listening")
        { wordsSaved := 0, scenarioCompleted := none, grammarCompleted := none }).statsEmitted
      = none := by
  exact ⟨by decide, rfl, rfl⟩

/-- Claim C9 (amended): with fewer than one learner turn and no active
listening exercise, exiting skips the review entirely — no Gateway exchange
is requested — and immediately emits the accumulated session statistics. -/
theorem exit_skips_review (messages : List Message) (stats : SessionStats)
    (hno : (messages.filter (fun m => m.role == Role.user)).length < 1) :
    endSessionAndShowReview messages none stats =
      { reviewRequested := false, statsEmitted := some stats, showReview := false } := by
  simp [endSessionAndShowReview, hno]

/-- Witness for claim C9 (amended): a tutor-only session skips the review. -/
theorem exit_skips_review_witness :
    endSessionAndShowReview [{ role := .model, text := "Bonjour" }] none
        { wordsSaved := 2, scenarioCompleted := none, grammarCompleted := none } =
      { reviewRequested := false,
        statsEmitted := some
          { wordsSaved := 2, scenarioCompleted := none, grammarCompleted := none },
        showReview := false } :=
  exit_skips_review [{ role := .model, text := "Bonjour" }]
    { wordsSaved := 2, scenarioCompleted := none, grammarCompleted := none } (by decide)

end FrenchCompanion
